import Mathlib

/-!
Verification development for the Grandmaster Chess Mobile session controller
(src/App.tsx) and its collaborators (src/components/SettingsModal.tsx, the
analysis service in src/unnamed/part_000).

The rules engine (chess.js) is an external collaborator per the design
document, so it is embedded as an abstract interface `Engine` over an opaque
engine-state type; the controller logic of App.tsx is translated as explicit
state-passing functions over `AppState`.  React-specific semantics are
embedded faithfully:

* `gameRef` is a mutable ref, so engine mutations are visible immediately
  inside an event handler; `useState` setters only take effect for the next
  event, which is captured by threading an explicit `AppState` through each
  handler.
* `updateGameState` is a `useCallback` whose closure captures the
  `whiteTime`/`blackTime` values of the render in which the handler runs, so
  it is embedded with explicit `wt`/`bt` parameters supplied by each caller:
  handlers that have not queued clock updates pass the state's current
  clocks, while `resetGame` (which queues new clock values before calling
  `updateGameState`) must pass the pre-reset values.
* Buttons carry their `disabled` conditions (Takeback: line 603, Hint:
  line 615), so the user-invocable operation is the click gated by that
  condition.
* The one-per-second interval (lines 105-123) and the timeout check effect
  (lines 126-138) combine into a single `tick` transition: the effect runs
  before any further event can be processed.
* Asynchronous completions (analysis suggestion, coach tip) are separate
  events parameterised by the external service's response.
-/

namespace GMChess

/-- Piece colors, `'w' | 'b'` in the source. -/
inductive Color where
  | w
  | b
deriving DecidableEq, Repr

/-- A board square, converted at the boundary from the engine's string form
`"e4"`: `col` is `square[0]`, `row` is `parseInt(square[1])`. -/
structure Sq where
  col : Char
  row : Nat
deriving DecidableEq, Repr

/-- A piece as returned by `game.get(square)`: `{color, type}`. -/
structure Piece where
  color : Color
  ptype : Char
deriving DecidableEq, Repr

/-- A verbose move record from the rules engine:
`{from, to, flags, san, captured?}` (duck-typed in the source, converted at
the boundary).  `fromSq`/`toSq` stand for the source's `from`/`to`. -/
structure MoveRec where
  fromSq : Sq
  toSq : Sq
  flags : String
  san : String
  captured : Bool
deriving DecidableEq, Repr

/-- The `lastMove` state of App.tsx: `{from, to, flags}` (line 43). -/
structure LastMove where
  fromSq : Sq
  toSq : Sq
  flags : String
deriving DecidableEq, Repr

/-- A move request `{from, to, promotion}` as built in `onSquareClick`
(lines 201-205). -/
structure MoveAttempt where
  fromSq : Sq
  toSq : Sq
  promotion : Char
deriving DecidableEq, Repr

/-- The rules-engine collaborator (chess.js), abstract per the design
document: "legal-move generation and terminal-state detection ... a
rules-engine collaborator".  `σ` is the opaque engine state; `move` returns
`none` both when chess.js returns null and when it throws (the source wraps
the call in try/catch, lines 209-213). -/
structure Engine (σ : Type) where
  init : σ
  fen : σ → String
  turn : σ → Color
  inCheck : σ → Bool
  isGameOver : σ → Bool
  isCheckmate : σ → Bool
  isDraw : σ → Bool
  isStalemate : σ → Bool
  pieceAt : σ → Sq → Option Piece
  movesFrom : σ → Sq → List MoveRec
  movesAll : σ → List MoveRec
  move : σ → MoveAttempt → Option (σ × MoveRec)
  undo : σ → σ
  history : σ → List MoveRec

/-- The controller's reactive state: the `useState` pieces of App.tsx that
the session-controller claims are about, plus the engine handle `game`
(the `gameRef`). -/
structure AppState (σ : Type) where
  game : σ
  fen : String
  selectedSquare : Option Sq
  possibleMoves : List Sq
  turn : Color
  isCheck : Bool
  gameOver : Bool
  gameStatus : String
  coachTip : String
  lastMove : Option LastMove
  historyCount : Nat
  suggestedMove : Option (Sq × Sq)
  suggestionLoading : Bool
  whiteTime : Nat
  blackTime : Nat
  timeControl : Nat
  whiteName : String
  blackName : String
deriving DecidableEq, Repr

/-- `whiteName.trim() || 'White'` (App.tsx lines 81-82): the displayed
player name falls back to the default when the trimmed stored name is
empty. -/
def jsWhitespace (c : Char) : Bool :=
  c = ' ' || c = '\t' || c = '\n' || c = '\r'

/-- JavaScript `String.prototype.trim`: strip whitespace from both ends. -/
def jsTrim (s : String) : String :=
  String.mk (((s.toList.dropWhile jsWhitespace).reverse.dropWhile jsWhitespace).reverse)

/-- `stored.trim() || dflt` — empty string is falsy in JS. -/
def displayName (stored dflt : String) : String :=
  let t := jsTrim stored
  if t = "" then dflt else t

/-- `updateGameState` (App.tsx lines 146-184).  `wt`/`bt` are the
`whiteTime`/`blackTime` captured by the `useCallback` closure of the render
the calling handler runs in (see the header comment): `resetGame` passes the
pre-reset clocks, other callers pass the state's current clocks. -/
def updateGameState {σ : Type} (eng : Engine σ) (wt bt : Nat) (s : AppState σ) : AppState σ :=
  let g := s.game
  let hist := eng.history g
  let s1 : AppState σ :=
    { s with
      fen := eng.fen g
      turn := eng.turn g
      isCheck := eng.inCheck g
      historyCount := hist.length
      lastMove :=
        match hist.getLast? with
        | some m => some ⟨m.fromSq, m.toSq, m.flags⟩
        | none => none }
  if eng.isGameOver g then
    { s1 with
      gameOver := true
      gameStatus :=
        if eng.isCheckmate g then
          "Checkmate! " ++
            (if eng.turn g = Color.w then displayName s.blackName "Black"
             else displayName s.whiteName "White") ++ " wins."
        else if eng.isDraw g then "Draw!"
        else if eng.isStalemate g then "Stalemate!"
        else "Game Over" }
  else
    if 0 < wt ∧ 0 < bt then { s1 with gameOver := false, gameStatus := "" }
    else s1

/-- The fallthrough selection attempt at the end of `onSquareClick`
(App.tsx lines 241-251): select the clicked square if it holds a piece of
the side to move, otherwise clear the selection. -/
def trySelect {σ : Type} (eng : Engine σ) (sq : Sq) (s : AppState σ) : AppState σ :=
  match eng.pieceAt s.game sq with
  | some p =>
    if p.color = eng.turn s.game then
      { s with
        selectedSquare := some sq
        possibleMoves := (eng.movesFrom s.game sq).map (fun m => m.toSq) }
    else { s with selectedSquare := none, possibleMoves := [] }
  | none => { s with selectedSquare := none, possibleMoves := [] }

/-- `onSquareClick` (App.tsx lines 186-252).  `coachRoll` is the outcome of
the `Math.random() > 0.7` draw; when it is true the coach tip arrives later
as a separate asynchronous event (`coachArrive`), otherwise the tip is
cleared immediately. -/
def squareClick {σ : Type} (eng : Engine σ) (sq : Sq) (coachRoll : Bool) (s : AppState σ) : AppState σ :=
  if s.gameOver then s
  else if s.selectedSquare = some sq then
    { s with selectedSquare := none, possibleMoves := [] }
  else
    match s.selectedSquare with
    | some src =>
      match eng.move s.game ⟨src, sq, 'q'⟩ with
      | some (g2, _mv) =>
        let s1 :=
          { s with
            game := g2
            selectedSquare := none
            possibleMoves := []
            suggestedMove := none }
        let s2 := updateGameState eng s.whiteTime s.blackTime s1
        if coachRoll then s2 else { s2 with coachTip := "" }
      | none => trySelect eng sq s
    | none => trySelect eng sq s

/-- `undoMove` (App.tsx lines 254-264). -/
def undoMove {σ : Type} (eng : Engine σ) (s : AppState σ) : AppState σ :=
  if (eng.history s.game).length = 0 then s
  else
    let s1 :=
      { s with
        game := eng.undo s.game
        selectedSquare := none
        possibleMoves := []
        suggestedMove := none
        coachTip := "" }
    updateGameState eng s.whiteTime s.blackTime s1

/-- The Takeback button (App.tsx lines 601-610): `undoMove` gated by
`disabled={historyCount === 0 || gameOver}`. -/
def undoClick {σ : Type} (eng : Engine σ) (s : AppState σ) : AppState σ :=
  if s.historyCount = 0 || s.gameOver then s else undoMove eng s

/-- `resetGame` (App.tsx lines 266-276).  The queued clock updates are not
visible to the `updateGameState` closure, so the pre-reset clocks
`s.whiteTime`/`s.blackTime` are what it reads. -/
def resetGame {σ : Type} (eng : Engine σ) (s : AppState σ) : AppState σ :=
  let s1 :=
    { s with
      game := eng.init
      whiteTime := s.timeControl * 60
      blackTime := s.timeControl * 60
      coachTip := ""
      selectedSquare := none
      possibleMoves := []
      suggestedMove := none }
  updateGameState eng s.whiteTime s.blackTime s1

/-- The interval decrement `prev <= 0 ? 0 : prev - 1`
(App.tsx lines 110-118). -/
def decTimeJS (n : Nat) : Nat :=
  if n ≤ 0 then 0 else n - 1

/-- The timeout-check effect (App.tsx lines 126-138). -/
def timeoutCheck {σ : Type} (s : AppState σ) : AppState σ :=
  if s.gameOver then s
  else if s.whiteTime ≤ 0 then
    { s with
      gameOver := true
      gameStatus := displayName s.blackName "Black" ++ " wins on time!" }
  else if s.blackTime ≤ 0 then
    { s with
      gameOver := true
      gameStatus := displayName s.whiteName "White" ++ " wins on time!" }
  else s

/-- One wall-clock second: the interval body (App.tsx lines 105-123; the
interval only exists while `gameOver` is false) followed by the timeout
effect, which runs before any further event. -/
def tick {σ : Type} (s : AppState σ) : AppState σ :=
  if s.gameOver then s
  else
    let s1 :=
      if s.turn = Color.w then { s with whiteTime := decTimeJS s.whiteTime }
      else { s with blackTime := decTimeJS s.blackTime }
    timeoutCheck s1

/-- The synchronous prefix of `handleSuggestMove` (App.tsx lines 287-291):
the early return on `gameOver`, then `setSuggestionLoading(true)` and
`setSuggestedMove(null)` before the asynchronous analysis call is issued. -/
def suggestStart {σ : Type} (s : AppState σ) : AppState σ :=
  if s.gameOver then s
  else { s with suggestionLoading := true, suggestedMove := none }

/-- The Hint button's `disabled={gameOver || suggestionLoading}`
(App.tsx line 615). -/
def hintDisabled {σ : Type} (s : AppState σ) : Bool :=
  s.gameOver || s.suggestionLoading

/-- A click on the Hint button (App.tsx lines 613-626). -/
def hintClick {σ : Type} (s : AppState σ) : AppState σ :=
  if hintDisabled s then s else suggestStart s

/-- Whether a click on the Hint button issues an analysis call: when the
button is enabled, `handleSuggestMove` runs with `gameOver` false and always
reaches `analyzeBoard` (line 293). -/
def hintIssuesCall {σ : Type} (s : AppState σ) : Bool :=
  !(hintDisabled s)

/-- The completion handler of `handleSuggestMove` (App.tsx lines 295-304),
run when the analysis call resolves with `result.bestMove = bestMove`
(`none` models a missing field, and the empty string is falsy).  Note that
it reads `game.moves()` at completion time — the position current when the
result arrives, not the position the request was issued against — and
carries no version stamp. -/
def suggestComplete {σ : Type} (eng : Engine σ) (bestMove : Option String) (s : AppState σ) : AppState σ :=
  let s1 :=
    match bestMove with
    | some bm =>
      if bm = "" then s
      else
        match (eng.movesAll s.game).find? (fun (m : MoveRec) => m.san == bm) with
        | some m => { s with suggestedMove := some (m.fromSq, m.toSq) }
        | none => s
    | none => s
  { s1 with suggestionLoading := false }

/-- Arrival of an asynchronous coach tip
(`getCoachTip(...).then(tip => setCoachTip(tip))`, App.tsx line 230). -/
def coachArrive {σ : Type} (tip : String) (s : AppState σ) : AppState σ :=
  { s with coachTip := tip }

/-- `setTimeControl` from the settings modal; clocks change only on the next
reset. -/
def setTimeControlOp {σ : Type} (tc : Nat) (s : AppState σ) : AppState σ :=
  { s with timeControl := tc }

/-- `setWhiteName` from the settings modal. -/
def setWhiteNameOp {σ : Type} (n : String) (s : AppState σ) : AppState σ :=
  { s with whiteName := n }

/-- `setBlackName` from the settings modal. -/
def setBlackNameOp {σ : Type} (n : String) (s : AppState σ) : AppState σ :=
  { s with blackName := n }

/-- The controller's event surface: every state-relevant event the app can
receive. -/
inductive Op where
  | click (sq : Sq) (roll : Bool)
  | takeback
  | reset
  | tick
  | hint
  | complete (bestMove : Option String)
  | coach (tip : String)
  | setTC (tc : Nat)
  | setWName (n : String)
  | setBName (n : String)
deriving DecidableEq, Repr

/-- One controller step. -/
def step {σ : Type} (eng : Engine σ) : Op → AppState σ → AppState σ
  | .click sq roll, s => squareClick eng sq roll s
  | .takeback, s => undoClick eng s
  | .reset, s => resetGame eng s
  | .tick, s => tick s
  | .hint, s => hintClick s
  | .complete bm, s => suggestComplete eng bm s
  | .coach t, s => coachArrive t s
  | .setTC tc, s => setTimeControlOp tc s
  | .setWName n, s => setWhiteNameOp n s
  | .setBName n, s => setBlackNameOp n s

/-- The state at session start (the `useState` initialisers of App.tsx):
starting position, white to move, clocks at `timeControl * 60` seconds,
everything else empty. -/
def mkInitial {σ : Type} (eng : Engine σ) (tc : Nat) (wn bn : String) : AppState σ :=
  { game := eng.init
    fen := eng.fen eng.init
    selectedSquare := none
    possibleMoves := []
    turn := Color.w
    isCheck := false
    gameOver := false
    gameStatus := ""
    coachTip := ""
    lastMove := none
    historyCount := 0
    suggestedMove := none
    suggestionLoading := false
    whiteTime := tc * 60
    blackTime := tc * 60
    timeControl := tc
    whiteName := wn
    blackName := bn }

/-- Run a sequence of events from the initial state. -/
def run {σ : Type} (eng : Engine σ) (tc : Nat) (wn bn : String) (ops : List Op) : AppState σ :=
  ops.foldl (fun s o => step eng o s) (mkInitial eng tc wn bn)

/-! ### Animation Resolver (App.tsx lines 307-312 and 454-468) -/

/-- `boardRows = [8, 7, 6, 5, 4, 3, 2, 1]` (App.tsx line 307). -/
def boardRows : List Nat := [8, 7, 6, 5, 4, 3, 2, 1]

/-- `boardCols = ['a', ..., 'h']` (App.tsx line 308). -/
def boardCols : List Char := ['a', 'b', 'c', 'd', 'e', 'f', 'g', 'h']

/-- `displayRows` (App.tsx line 311). -/
def displayRows (o : Color) : List Nat :=
  if o = Color.w then boardRows else boardRows.reverse

/-- `displayCols` (App.tsx line 312). -/
def displayCols (o : Color) : List Char :=
  if o = Color.w then boardCols else boardCols.reverse

/-- JavaScript `Array.prototype.indexOf`: the index of the first occurrence,
`-1` when absent. -/
def jsIndexOf {α : Type} [DecidableEq α] : List α → α → Int
  | [], _ => -1
  | x :: xs, a =>
    if x = a then 0
    else
      let r := jsIndexOf xs a
      if r = -1 then -1 else r + 1

/-- The animation-offset computation (App.tsx lines 454-468): index the
endpoints of the last move in the displayed grid and, when the guard
`fromRowIndex !== -1 && toRowIndex !== -1` passes, return the signed vector
`{x: fromColIndex - toColIndex, y: fromRowIndex - toRowIndex}`. -/
def animationOffset (fromSq toSq : Sq) (o : Color) : Option (Int × Int) :=
  let fromRowIndex := jsIndexOf (displayRows o) fromSq.row
  let fromColIndex := jsIndexOf (displayCols o) fromSq.col
  let toRowIndex := jsIndexOf (displayRows o) toSq.row
  let toColIndex := jsIndexOf (displayCols o) toSq.col
  if fromRowIndex ≠ -1 ∧ toRowIndex ≠ -1 then
    some (fromColIndex - toColIndex, fromRowIndex - toRowIndex)
  else none

/-! ### Commentary service (`getCoachTip`, src/unnamed/part_000 lines 66-79) -/

/-- `getCoachTip`.  `apiKey` models `process.env.API_KEY` (`none` when not
set, in which case `getClient` returns null and the function returns the
string "Coach unavailable.").  `service` models the awaited model call
together with the `response.text` access: `Except.error` is any rejection or
thrown error (absorbed by the catch into the empty string), `Except.ok t`
a successful response whose optional text `t` is defaulted to the empty
string by `response.text || ""`.  Totality of this definition reflects that
every failure path returns normally rather than raising. -/
def getCoachTip (apiKey : Option String) (service : Except Unit (Option String)) : String :=
  match apiKey with
  | none => "Coach unavailable."
  | some _ =>
    match service with
    | Except.error _ => ""
    | Except.ok t =>
      match t with
      | some txt => txt
      | none => ""

/-! ### A concrete rules-engine instance

The controller is generic over the engine collaborator; for concrete
witnesses and counterexamples we instantiate it with `miniEngine`, a small
engine whose behaviour coincides with chess.js on a fragment of a real game.
The fragment mirrors the position after 1.e4 d5 2.e5 c6 (white to move,
labelled `p0`): white's pawn thrust e5–e6 has SAN "e6", and the quiet move
a2–a3 (SAN "a3") is legal.  After the manual reply 3.a3 (labelled `p1`,
black to move) black's pawn move e7–e6 also has SAN "e6" — the same SAN
string now names a different, black move.  `p2`/`p3` are the positions after
3.e6 and 3.a3 e6 respectively. -/

/-- Positions of the concrete engine fragment. -/
inductive MiniPos where
  | p0
  | p1
  | p2
  | p3
deriving DecidableEq, Repr

/-- Square a2. -/
def sqA2 : Sq := ⟨'a', 2⟩

/-- Square a3. -/
def sqA3 : Sq := ⟨'a', 3⟩

/-- Square e5. -/
def sqE5 : Sq := ⟨'e', 5⟩

/-- Square e6. -/
def sqE6 : Sq := ⟨'e', 6⟩

/-- Square e7. -/
def sqE7 : Sq := ⟨'e', 7⟩

/-- White's a2–a3, SAN "a3". -/
def mvA2A3 : MoveRec := ⟨sqA2, sqA3, "n", "a3", false⟩

/-- White's e5–e6, SAN "e6". -/
def mvE5E6 : MoveRec := ⟨sqE5, sqE6, "n", "e6", false⟩

/-- Black's e7–e6, SAN "e6". -/
def mvE7E6 : MoveRec := ⟨sqE7, sqE6, "n", "e6", false⟩

/-- The concrete engine fragment (see the section comment). -/
def miniEngine : Engine MiniPos where
  init := .p0
  fen := fun st =>
    match st with
    | .p0 => "fen0"
    | .p1 => "fen1"
    | .p2 => "fen2"
    | .p3 => "fen3"
  turn := fun st =>
    match st with
    | .p0 => .w
    | .p1 => .b
    | .p2 => .b
    | .p3 => .w
  inCheck := fun _ => false
  isGameOver := fun _ => false
  isCheckmate := fun _ => false
  isDraw := fun _ => false
  isStalemate := fun _ => false
  pieceAt := fun st sq =>
    match st with
    | .p0 =>
      if sq = sqA2 then some ⟨.w, 'p'⟩
      else if sq = sqE5 then some ⟨.w, 'p'⟩
      else if sq = sqE7 then some ⟨.b, 'p'⟩
      else none
    | _ => none
  movesFrom := fun st sq =>
    match st with
    | .p0 =>
      if sq = sqA2 then [mvA2A3]
      else if sq = sqE5 then [mvE5E6]
      else []
    | _ => []
  movesAll := fun st =>
    match st with
    | .p0 => [mvA2A3, mvE5E6]
    | .p1 => [mvE7E6]
    | _ => []
  move := fun st att =>
    match st with
    | .p0 =>
      if att.fromSq = sqA2 ∧ att.toSq = sqA3 then some (.p1, mvA2A3)
      else if att.fromSq = sqE5 ∧ att.toSq = sqE6 then some (.p2, mvE5E6)
      else none
    | .p1 =>
      if att.fromSq = sqE7 ∧ att.toSq = sqE6 then some (.p3, mvE7E6)
      else none
    | _ => none
  undo := fun st =>
    match st with
    | .p0 => .p0
    | .p1 => .p0
    | .p2 => .p0
    | .p3 => .p1
  history := fun st =>
    match st with
    | .p0 => []
    | .p1 => [mvA2A3]
    | .p2 => [mvE5E6]
    | .p3 => [mvA2A3, mvE7E6]

/-! ### Helper lemmas: fields the individual handlers never touch -/

@[simp]
theorem updateGameState_game {σ : Type} (eng : Engine σ) (wt bt : Nat) (s : AppState σ) :
    (updateGameState eng wt bt s).game = s.game := by
  unfold updateGameState
  by_cases hg : eng.isGameOver s.game = true
  · simp [hg]
  · by_cases hwt : 0 < wt ∧ 0 < bt
    · simp [hg, hwt]
    · simp [hg, hwt]

@[simp]
theorem updateGameState_selectedSquare {σ : Type} (eng : Engine σ) (wt bt : Nat) (s : AppState σ) :
    (updateGameState eng wt bt s).selectedSquare = s.selectedSquare := by
  unfold updateGameState
  by_cases hg : eng.isGameOver s.game = true
  · simp [hg]
  · by_cases hwt : 0 < wt ∧ 0 < bt
    · simp [hg, hwt]
    · simp [hg, hwt]

@[simp]
theorem updateGameState_suggestedMove {σ : Type} (eng : Engine σ) (wt bt : Nat) (s : AppState σ) :
    (updateGameState eng wt bt s).suggestedMove = s.suggestedMove := by
  unfold updateGameState
  by_cases hg : eng.isGameOver s.game = true
  · simp [hg]
  · by_cases hwt : 0 < wt ∧ 0 < bt
    · simp [hg, hwt]
    · simp [hg, hwt]

@[simp]
theorem updateGameState_whiteTime {σ : Type} (eng : Engine σ) (wt bt : Nat) (s : AppState σ) :
    (updateGameState eng wt bt s).whiteTime = s.whiteTime := by
  unfold updateGameState
  by_cases hg : eng.isGameOver s.game = true
  · simp [hg]
  · by_cases hwt : 0 < wt ∧ 0 < bt
    · simp [hg, hwt]
    · simp [hg, hwt]

@[simp]
theorem updateGameState_blackTime {σ : Type} (eng : Engine σ) (wt bt : Nat) (s : AppState σ) :
    (updateGameState eng wt bt s).blackTime = s.blackTime := by
  unfold updateGameState
  by_cases hg : eng.isGameOver s.game = true
  · simp [hg]
  · by_cases hwt : 0 < wt ∧ 0 < bt
    · simp [hg, hwt]
    · simp [hg, hwt]

@[simp]
theorem updateGameState_possibleMoves {σ : Type} (eng : Engine σ) (wt bt : Nat) (s : AppState σ) :
    (updateGameState eng wt bt s).possibleMoves = s.possibleMoves := by
  unfold updateGameState
  by_cases hg : eng.isGameOver s.game = true
  · simp [hg]
  · by_cases hwt : 0 < wt ∧ 0 < bt
    · simp [hg, hwt]
    · simp [hg, hwt]

@[simp]
theorem timeoutCheck_game {σ : Type} (s : AppState σ) :
    (timeoutCheck s).game = s.game := by
  unfold timeoutCheck
  split_ifs <;> rfl

@[simp]
theorem timeoutCheck_selectedSquare {σ : Type} (s : AppState σ) :
    (timeoutCheck s).selectedSquare = s.selectedSquare := by
  unfold timeoutCheck
  split_ifs <;> rfl

@[simp]
theorem timeoutCheck_possibleMoves {σ : Type} (s : AppState σ) :
    (timeoutCheck s).possibleMoves = s.possibleMoves := by
  unfold timeoutCheck
  split_ifs <;> rfl

@[simp]
theorem timeoutCheck_whiteTime {σ : Type} (s : AppState σ) :
    (timeoutCheck s).whiteTime = s.whiteTime := by
  unfold timeoutCheck
  split_ifs <;> rfl

@[simp]
theorem timeoutCheck_blackTime {σ : Type} (s : AppState σ) :
    (timeoutCheck s).blackTime = s.blackTime := by
  unfold timeoutCheck
  split_ifs <;> rfl

@[simp]
theorem timeoutCheck_suggestedMove {σ : Type} (s : AppState σ) :
    (timeoutCheck s).suggestedMove = s.suggestedMove := by
  unfold timeoutCheck
  split_ifs <;> rfl

@[simp]
theorem timeoutCheck_historyCount {σ : Type} (s : AppState σ) :
    (timeoutCheck s).historyCount = s.historyCount := by
  unfold timeoutCheck
  split_ifs <;> rfl

@[simp]
theorem timeoutCheck_turn {σ : Type} (s : AppState σ) :
    (timeoutCheck s).turn = s.turn := by
  unfold timeoutCheck
  split_ifs <;> rfl

@[simp]
theorem trySelect_game {σ : Type} (eng : Engine σ) (sq : Sq) (s : AppState σ) :
    (trySelect eng sq s).game = s.game := by
  unfold trySelect
  rcases eng.pieceAt s.game sq with _ | p
  · rfl
  · dsimp only
    split_ifs <;> rfl

@[simp]
theorem trySelect_whiteTime {σ : Type} (eng : Engine σ) (sq : Sq) (s : AppState σ) :
    (trySelect eng sq s).whiteTime = s.whiteTime := by
  unfold trySelect
  rcases eng.pieceAt s.game sq with _ | p
  · rfl
  · dsimp only
    split_ifs <;> rfl

@[simp]
theorem trySelect_blackTime {σ : Type} (eng : Engine σ) (sq : Sq) (s : AppState σ) :
    (trySelect eng sq s).blackTime = s.blackTime := by
  unfold trySelect
  rcases eng.pieceAt s.game sq with _ | p
  · rfl
  · dsimp only
    split_ifs <;> rfl

@[simp]
theorem trySelect_historyCount {σ : Type} (eng : Engine σ) (sq : Sq) (s : AppState σ) :
    (trySelect eng sq s).historyCount = s.historyCount := by
  unfold trySelect
  rcases eng.pieceAt s.game sq with _ | p
  · rfl
  · dsimp only
    split_ifs <;> rfl

@[simp]
theorem trySelect_gameOver {σ : Type} (eng : Engine σ) (sq : Sq) (s : AppState σ) :
    (trySelect eng sq s).gameOver = s.gameOver := by
  unfold trySelect
  rcases eng.pieceAt s.game sq with _ | p
  · rfl
  · dsimp only
    split_ifs <;> rfl

@[simp]
theorem trySelect_gameStatus {σ : Type} (eng : Engine σ) (sq : Sq) (s : AppState σ) :
    (trySelect eng sq s).gameStatus = s.gameStatus := by
  unfold trySelect
  rcases eng.pieceAt s.game sq with _ | p
  · rfl
  · dsimp only
    split_ifs <;> rfl

@[simp]
theorem trySelect_fen {σ : Type} (eng : Engine σ) (sq : Sq) (s : AppState σ) :
    (trySelect eng sq s).fen = s.fen := by
  unfold trySelect
  rcases eng.pieceAt s.game sq with _ | p
  · rfl
  · dsimp only
    split_ifs <;> rfl

@[simp]
theorem trySelect_lastMove {σ : Type} (eng : Engine σ) (sq : Sq) (s : AppState σ) :
    (trySelect eng sq s).lastMove = s.lastMove := by
  unfold trySelect
  rcases eng.pieceAt s.game sq with _ | p
  · rfl
  · dsimp only
    split_ifs <;> rfl

@[simp]
theorem trySelect_suggestedMove {σ : Type} (eng : Engine σ) (sq : Sq) (s : AppState σ) :
    (trySelect eng sq s).suggestedMove = s.suggestedMove := by
  unfold trySelect
  rcases eng.pieceAt s.game sq with _ | p
  · rfl
  · dsimp only
    split_ifs <;> rfl

/-- `decTimeJS` is truncated subtraction by one. -/
theorem decTimeJS_eq (n : Nat) : decTimeJS n = n - 1 := by
  unfold decTimeJS
  split_ifs with h
  · omega
  · rfl

/-- `jsIndexOf` of a present element is non-negative. -/
theorem jsIndexOf_nonneg_of_mem {α : Type} [DecidableEq α] {l : List α} {a : α}
    (h : a ∈ l) : 0 ≤ jsIndexOf l a := by
  induction l with
  | nil => cases h
  | cons x xs ih =>
    unfold jsIndexOf
    by_cases hx : x = a
    · simp [hx]
    · have hmem : a ∈ xs := by
        rcases List.mem_cons.mp h with h1 | h1
        · exact absurd h1.symm hx
        · exact h1
      have hr := ih hmem
      simp only [hx, if_false]
      split_ifs with hr1
      · omega
      · omega

/-- `jsIndexOf` of a present element is never the sentinel `-1`. -/
theorem jsIndexOf_ne_neg_one_of_mem {α : Type} [DecidableEq α] {l : List α} {a : α}
    (h : a ∈ l) : jsIndexOf l a ≠ -1 := by
  have := jsIndexOf_nonneg_of_mem h
  omega

/-! ### Claim theorems -/

/-- C1, counterexample.  `requestSuggestion` is issued at the position
`p0` (white to move, best move "e6" = e5–e6); before it resolves, the legal
manual move a2–a3 is played via two square clicks; when the suggestion then
resolves, the completion handler matches the stale SAN "e6" against the
moves of the *current* position `p1` and finds black's e7–e6, so the
Recommendation is set to (e7, e6) instead of remaining absent. -/
theorem c1_counterexample :
    (run miniEngine 10 "" ""
        [Op.hint, Op.click sqA2 false, Op.click sqA3 false,
         Op.complete (some "e6")]).suggestedMove = some (sqE7, sqE6) ∧
    (run miniEngine 10 "" ""
        [Op.hint, Op.click sqA2 false, Op.click sqA3 false,
         Op.complete (some "e6")]).suggestedMove ≠ none := by
  decide

set_option maxRecDepth 40000 in
/-- C2, evaluation at the failing input.  A fresh one-minute game ticks 60
times: white's clock reaches 0 and the Outcome becomes a timeout for black.
`resetGame` is then invoked, but because its `updateGameState` call reads
the pre-reset clock values captured by the `useCallback` closure
(`whiteTime = 0`), the guard `whiteTime > 0 && blackTime > 0` fails and
`gameOver`/`gameStatus` are left in the timed-out state even though the
position, history, and clocks were reinitialised; only a second reset
(now reading positive clocks) restores the active Outcome. -/
theorem c2_bug_eval :
    (run miniEngine 1 "" "" (List.replicate 60 Op.tick)).gameOver = true ∧
    (run miniEngine 1 "" "" (List.replicate 60 Op.tick)).whiteTime = 0 ∧
    (run miniEngine 1 "" "" (List.replicate 60 Op.tick)).gameStatus
      = "Black wins on time!" ∧
    (run miniEngine 1 "" "" (List.replicate 60 Op.tick ++ [Op.reset])).gameOver = true ∧
    (run miniEngine 1 "" "" (List.replicate 60 Op.tick ++ [Op.reset])).gameStatus
      = "Black wins on time!" ∧
    (run miniEngine 1 "" "" (List.replicate 60 Op.tick ++ [Op.reset])).whiteTime = 60 ∧
    (run miniEngine 1 "" "" (List.replicate 60 Op.tick ++ [Op.reset])).blackTime = 60 ∧
    (run miniEngine 1 "" "" (List.replicate 60 Op.tick ++ [Op.reset])).historyCount = 0 ∧
    (run miniEngine 1 "" "" (List.replicate 60 Op.tick ++ [Op.reset])).suggestedMove = none ∧
    (run miniEngine 1 "" ""
        (List.replicate 60 Op.tick ++ [Op.reset, Op.reset])).gameOver = false := by
  decide

/-- C7: a click on the Hint control is a no-op — it changes no state and
issues no analysis call — whenever the Outcome is terminal or a suggestion
request is already outstanding.  (The terminal guard is the early return of
`handleSuggestMove` together with the button's `disabled` condition; the
outstanding-request guard is the `suggestionLoading` disjunct of the
button's `disabled` condition, App.tsx line 615.) -/
theorem c7_hint_noop {σ : Type} (s : AppState σ)
    (h : s.gameOver = true ∨ s.suggestionLoading = true) :
    hintClick s = s ∧ hintIssuesCall s = false := by
  have hd : hintDisabled s = true := by
    cases h with
    | inl h => simp [hintDisabled, h]
    | inr h => simp [hintDisabled, h]
  exact ⟨by simp [hintClick, hd], by simp [hintIssuesCall, hd]⟩

/-- C7, witness: with a request outstanding, clicking Hint changes nothing
and issues no call. -/
theorem c7_hint_noop_witness :
    hintClick { mkInitial miniEngine 1 "" "" with suggestionLoading := true }
      = { mkInitial miniEngine 1 "" "" with suggestionLoading := true } ∧
    hintIssuesCall { mkInitial miniEngine 1 "" "" with suggestionLoading := true }
      = false :=
  c7_hint_noop _ (Or.inr rfl)

/-- C9, counterexample: with the API key missing, `getCoachTip` returns the
fixed string "Coach unavailable.", not the empty string. -/
theorem c9_counterexample :
    getCoachTip none (Except.ok (some "tip")) = "Coach unavailable." ∧
    getCoachTip none (Except.error ()) = "Coach unavailable." ∧
    ("Coach unavailable." : String) ≠ "" := by
  exact ⟨rfl, rfl, by decide⟩

/-- C9 (amended): `getCoachTip` never raises — every path returns a string —
and returns the empty string on analysis-service errors and on a missing
response text; but when the API key is missing it returns the fixed
fallback "Coach unavailable." rather than the empty string. -/
theorem c9_amended (k : String) (u : Unit) (t : Option String)
    (svc : Except Unit (Option String)) :
    getCoachTip none svc = "Coach unavailable." ∧
    getCoachTip (some k) (Except.error u) = "" ∧
    getCoachTip (some k) (Except.ok t) = t.getD "" := by
  refine ⟨rfl, rfl, ?_⟩
  cases t <;> rfl

/-- C9, witness instance of the amended characterisation. -/
theorem c9_amended_witness :
    getCoachTip none (Except.ok none) = "Coach unavailable." ∧
    getCoachTip (some "key") (Except.error ()) = "" ∧
    getCoachTip (some "key") (Except.ok (none : Option String))
      = (none : Option String).getD "" :=
  c9_amended "key" () none (Except.ok none)

/-- C10, counterexample: for the stored name " Bob " (non-empty after
trimming), the displayed name is the trimmed "Bob", not the stored string
" Bob " — the claim that the displayed name equals the stored name fails. -/
theorem c10_counterexample :
    jsTrim " Bob " ≠ "" ∧
    displayName " Bob " "White" = "Bob" ∧
    displayName " Bob " "White" ≠ " Bob " := by
  decide

/-- C10 (amended): the displayed name equals the whitespace-trimmed stored
name when that is non-empty and otherwise falls back to the default
"White" (resp. "Black"); in particular it is never the blank string. -/
theorem c10_amended (stored : String) :
    displayName stored "White" = (if jsTrim stored = "" then "White" else jsTrim stored) ∧
    displayName stored "White" ≠ "" ∧
    displayName stored "Black" = (if jsTrim stored = "" then "Black" else jsTrim stored) ∧
    displayName stored "Black" ≠ "" := by
  refine ⟨rfl, ?_, rfl, ?_⟩ <;>
  · unfold displayName
    by_cases h : jsTrim stored = "" <;> simp [h]

/-- C10, witness instance of the amended characterisation. -/
theorem c10_amended_witness :
    displayName " Ann " "White"
      = (if jsTrim " Ann " = "" then "White" else jsTrim " Ann ") ∧
    displayName " Ann " "White" ≠ "" ∧
    displayName " Ann " "Black"
      = (if jsTrim " Ann " = "" then "Black" else jsTrim " Ann ") ∧
    displayName " Ann " "Black" ≠ "" :=
  c10_amended " Ann "

/-- C8, counterexample.  For the from-endpoint ⟨'z', 4⟩ the *column* 'z'
cannot be located in the displayed grid (`indexOf` returns -1), yet the
computation still returns an offset — the guard checks only the two row
indices, so the claim "returns no offset whenever either endpoint (row or
column of either square) cannot be located" fails. -/
theorem c8_counterexample :
    jsIndexOf (displayCols Color.w) 'z' = -1 ∧
    animationOffset ⟨'z', 4⟩ ⟨'e', 2⟩ Color.w = some (-5, -2) ∧
    animationOffset ⟨'z', 4⟩ ⟨'e', 2⟩ Color.w ≠ none := by
  decide

/-- C8 (amended): the animation-offset computation is a pure function of
(from, to, orientation); it returns no offset exactly when one of the two
*row* indices cannot be located under the current orientation, and otherwise
returns the signed vector (fromColumnIndex - toColumnIndex,
fromRowIndex - toRowIndex); column lookups are unguarded, but for squares
whose rows lie on the standard board every lookup succeeds and an offset is
always produced. -/
theorem c8_amended (f t : Sq) (o : Color) :
    (jsIndexOf (displayRows o) f.row = -1 ∨ jsIndexOf (displayRows o) t.row = -1 →
      animationOffset f t o = none) ∧
    (jsIndexOf (displayRows o) f.row ≠ -1 → jsIndexOf (displayRows o) t.row ≠ -1 →
      animationOffset f t o =
        some (jsIndexOf (displayCols o) f.col - jsIndexOf (displayCols o) t.col,
              jsIndexOf (displayRows o) f.row - jsIndexOf (displayRows o) t.row)) ∧
    (f.row ∈ boardRows → t.row ∈ boardRows → animationOffset f t o ≠ none) := by
  refine ⟨?_, ?_, ?_⟩
  · intro h
    unfold animationOffset
    rw [if_neg]
    tauto
  · intro h1 h2
    unfold animationOffset
    rw [if_pos ⟨h1, h2⟩]
  · intro hf ht
    have hf2 : f.row ∈ displayRows o := by
      unfold displayRows
      split_ifs
      · exact hf
      · exact List.mem_reverse.mpr hf
    have ht2 : t.row ∈ displayRows o := by
      unfold displayRows
      split_ifs
      · exact ht
      · exact List.mem_reverse.mpr ht
    unfold animationOffset
    rw [if_pos ⟨jsIndexOf_ne_neg_one_of_mem hf2, jsIndexOf_ne_neg_one_of_mem ht2⟩]
    exact Option.some_ne_none _

/-- C8, witness: for the board move e2–e4 under white orientation the
amended characterisation produces the offset (0, 2). -/
theorem c8_amended_witness :
    animationOffset ⟨'e', 2⟩ ⟨'e', 4⟩ Color.w
      = some (jsIndexOf (displayCols Color.w) 'e' - jsIndexOf (displayCols Color.w) 'e',
              jsIndexOf (displayRows Color.w) 2 - jsIndexOf (displayRows Color.w) 4) ∧
    animationOffset ⟨'e', 2⟩ ⟨'e', 4⟩ Color.w ≠ none :=
  ⟨(c8_amended ⟨'e', 2⟩ ⟨'e', 4⟩ Color.w).2.1 (by decide) (by decide),
   (c8_amended ⟨'e', 2⟩ ⟨'e', 4⟩ Color.w).2.2 (by decide) (by decide)⟩

/-- C5: when a selection exists and the attempted move from the selection to
the clicked square is rejected by the engine, the position, clocks, history,
and outcome are unchanged, and the clicked square is reprocessed as a fresh
selection attempt: it becomes selected (with its legal destinations) exactly
when it holds a piece of the side to move, and otherwise the selection is
cleared. -/
theorem c5_illegal_rejection {σ : Type} (eng : Engine σ) (s : AppState σ)
    (src dst : Sq) (roll : Bool)
    (hOver : s.gameOver = false)
    (hSel : s.selectedSquare = some src)
    (hNe : src ≠ dst)
    (hMove : eng.move s.game ⟨src, dst, 'q'⟩ = none) :
    (squareClick eng dst roll s).game = s.game ∧
    (squareClick eng dst roll s).fen = s.fen ∧
    (squareClick eng dst roll s).whiteTime = s.whiteTime ∧
    (squareClick eng dst roll s).blackTime = s.blackTime ∧
    (squareClick eng dst roll s).historyCount = s.historyCount ∧
    (squareClick eng dst roll s).lastMove = s.lastMove ∧
    (squareClick eng dst roll s).gameOver = s.gameOver ∧
    (squareClick eng dst roll s).gameStatus = s.gameStatus ∧
    (squareClick eng dst roll s).selectedSquare
      = (match eng.pieceAt s.game dst with
         | some p => if p.color = eng.turn s.game then some dst else none
         | none => none) ∧
    (squareClick eng dst roll s).possibleMoves
      = (match eng.pieceAt s.game dst with
         | some p =>
           if p.color = eng.turn s.game then
             (eng.movesFrom s.game dst).map (fun m => m.toSq)
           else []
         | none => []) := by
  have hfall : squareClick eng dst roll s = trySelect eng dst s := by
    unfold squareClick
    rw [hSel]
    simp [hOver, hNe, hMove]
  rw [hfall]
  refine ⟨by simp, by simp, by simp, by simp, by simp, by simp, by simp, by simp, ?_, ?_⟩ <;>
  · unfold trySelect
    rcases eng.pieceAt s.game dst with _ | p
    · rfl
    · dsimp only
      split_ifs <;> rfl

/-- C5, witness: in the concrete fragment, with a2 selected, clicking e6
attempts the illegal a2–e6; the position, clocks and history are unchanged
and the selection is cleared because e6 is empty. -/
theorem c5_illegal_rejection_witness :
    (squareClick miniEngine sqE6 false (run miniEngine 10 "" "" [Op.click sqA2 false])).game
      = (run miniEngine 10 "" "" [Op.click sqA2 false]).game ∧
    (squareClick miniEngine sqE6 false (run miniEngine 10 "" "" [Op.click sqA2 false])).fen
      = (run miniEngine 10 "" "" [Op.click sqA2 false]).fen ∧
    (squareClick miniEngine sqE6 false (run miniEngine 10 "" "" [Op.click sqA2 false])).whiteTime
      = (run miniEngine 10 "" "" [Op.click sqA2 false]).whiteTime ∧
    (squareClick miniEngine sqE6 false (run miniEngine 10 "" "" [Op.click sqA2 false])).blackTime
      = (run miniEngine 10 "" "" [Op.click sqA2 false]).blackTime ∧
    (squareClick miniEngine sqE6 false (run miniEngine 10 "" "" [Op.click sqA2 false])).historyCount
      = (run miniEngine 10 "" "" [Op.click sqA2 false]).historyCount ∧
    (squareClick miniEngine sqE6 false (run miniEngine 10 "" "" [Op.click sqA2 false])).lastMove
      = (run miniEngine 10 "" "" [Op.click sqA2 false]).lastMove ∧
    (squareClick miniEngine sqE6 false (run miniEngine 10 "" "" [Op.click sqA2 false])).gameOver
      = (run miniEngine 10 "" "" [Op.click sqA2 false]).gameOver ∧
    (squareClick miniEngine sqE6 false (run miniEngine 10 "" "" [Op.click sqA2 false])).gameStatus
      = (run miniEngine 10 "" "" [Op.click sqA2 false]).gameStatus ∧
    (squareClick miniEngine sqE6 false (run miniEngine 10 "" "" [Op.click sqA2 false])).selectedSquare
      = (match miniEngine.pieceAt (run miniEngine 10 "" "" [Op.click sqA2 false]).game sqE6 with
         | some p =>
           if p.color = miniEngine.turn (run miniEngine 10 "" "" [Op.click sqA2 false]).game
           then some sqE6 else none
         | none => none) ∧
    (squareClick miniEngine sqE6 false (run miniEngine 10 "" "" [Op.click sqA2 false])).possibleMoves
      = (match miniEngine.pieceAt (run miniEngine 10 "" "" [Op.click sqA2 false]).game sqE6 with
         | some p =>
           if p.color = miniEngine.turn (run miniEngine 10 "" "" [Op.click sqA2 false]).game then
             (miniEngine.movesFrom (run miniEngine 10 "" "" [Op.click sqA2 false]).game sqE6).map
               (fun m => m.toSq)
           else []
         | none => []) :=
  c5_illegal_rejection miniEngine (run miniEngine 10 "" "" [Op.click sqA2 false])
    sqA2 sqE6 false (by decide) (by decide) (by decide) (by decide)

/-- C3: while the Outcome is terminal a tick changes nothing; while it is
active, a tick decreases the clock of the side to move by exactly one second
(holding at zero, by truncated subtraction) and never changes the idle
side's clock; and if after the tick a clock stands at zero the Outcome is
terminal with the corresponding "wins on time!" status for the other
side. -/
theorem c3_tick_clock {σ : Type} (s : AppState σ) :
    (s.gameOver = true → tick s = s) ∧
    (s.gameOver = false → s.turn = Color.w →
      (tick s).blackTime = s.blackTime ∧ (tick s).whiteTime = s.whiteTime - 1) ∧
    (s.gameOver = false → s.turn = Color.b →
      (tick s).whiteTime = s.whiteTime ∧ (tick s).blackTime = s.blackTime - 1) ∧
    (s.gameOver = false → (tick s).whiteTime = 0 →
      (tick s).gameOver = true ∧
      (tick s).gameStatus = displayName s.blackName "Black" ++ " wins on time!") ∧
    (s.gameOver = false → (tick s).blackTime = 0 → (tick s).whiteTime ≠ 0 →
      (tick s).gameOver = true ∧
      (tick s).gameStatus = displayName s.whiteName "White" ++ " wins on time!") := by
  refine ⟨?_, ?_, ?_, ?_, ?_⟩
  · intro h
    unfold tick
    simp [h]
  · intro h ht
    unfold tick
    simp [h, ht, decTimeJS_eq]
  · intro h ht
    unfold tick
    simp [h, ht, decTimeJS_eq]
  · intro h hw
    unfold tick at hw ⊢
    simp only [h, Bool.false_eq_true, if_false] at hw ⊢
    by_cases ht : s.turn = Color.w
    · simp only [ht, if_true] at hw ⊢
      simp only [timeoutCheck_whiteTime] at hw
      unfold timeoutCheck
      simp [h, hw]
    · simp only [ht, if_false] at hw ⊢
      simp only [timeoutCheck_whiteTime] at hw
      unfold timeoutCheck
      simp [h, hw]
  · intro h hb hw
    unfold tick at hb hw ⊢
    simp only [h, Bool.false_eq_true, if_false] at hb hw ⊢
    by_cases ht : s.turn = Color.w
    · simp only [ht, if_true] at hb hw ⊢
      simp only [timeoutCheck_whiteTime, timeoutCheck_blackTime] at hb hw
      unfold timeoutCheck
      simp only [AppState.gameOver] at *
      simp [h, hb] at *
      split_ifs with h1
      · omega
      · simp
    · simp only [ht, if_false] at hb hw ⊢
      simp only [timeoutCheck_whiteTime, timeoutCheck_blackTime] at hb hw
      unfold timeoutCheck
      simp [h, hb] at *
      split_ifs with h1
      · omega
      · simp

/-- C3, witness: concrete tick behaviour at representative states of the
fragment: a terminal state is frozen; an active white-to-move state loses
one white second; an active black-to-move state loses one black second; a
white clock hitting zero yields black's timeout; a black clock hitting zero
yields white's timeout. -/
theorem c3_tick_clock_witness :
    tick { mkInitial miniEngine 1 "" "" with gameOver := true }
      = { mkInitial miniEngine 1 "" "" with gameOver := true } ∧
    ((tick (mkInitial miniEngine 1 "" "")).blackTime
        = (mkInitial miniEngine 1 "" "").blackTime ∧
      (tick (mkInitial miniEngine 1 "" "")).whiteTime
        = (mkInitial miniEngine 1 "" "").whiteTime - 1) ∧
    ((tick { mkInitial miniEngine 1 "" "" with turn := Color.b }).whiteTime
        = ({ mkInitial miniEngine 1 "" "" with turn := Color.b } : AppState MiniPos).whiteTime ∧
      (tick { mkInitial miniEngine 1 "" "" with turn := Color.b }).blackTime
        = ({ mkInitial miniEngine 1 "" "" with turn := Color.b } : AppState MiniPos).blackTime - 1) ∧
    ((tick { mkInitial miniEngine 1 "" "" with whiteTime := 1 }).gameOver = true ∧
      (tick { mkInitial miniEngine 1 "" "" with whiteTime := 1 }).gameStatus
        = displayName ({ mkInitial miniEngine 1 "" "" with whiteTime := 1 } : AppState MiniPos).blackName "Black"
            ++ " wins on time!") ∧
    ((tick { mkInitial miniEngine 1 "" "" with turn := Color.b, blackTime := 1 }).gameOver = true ∧
      (tick { mkInitial miniEngine 1 "" "" with turn := Color.b, blackTime := 1 }).gameStatus
        = displayName ({ mkInitial miniEngine 1 "" "" with turn := Color.b, blackTime := 1 } : AppState MiniPos).whiteName "White"
            ++ " wins on time!") :=
  ⟨(c3_tick_clock _).1 rfl,
   (c3_tick_clock _).2.1 rfl rfl,
   (c3_tick_clock _).2.2.1 rfl rfl,
   (c3_tick_clock _).2.2.2.1 rfl (by decide),
   (c3_tick_clock _).2.2.2.2 rfl (by decide) (by decide)⟩

/-- The completion handler leaves the Recommendation at its previous value
when the returned SAN matches no move legal in the position current at
completion time. -/
theorem suggestComplete_find_none {σ : Type} (eng : Engine σ) (bm : String) (s : AppState σ)
    (h : (eng.movesAll s.game).find? (fun (m : MoveRec) => m.san == bm) = none) :
    (suggestComplete eng (some bm) s).suggestedMove = s.suggestedMove := by
  unfold suggestComplete
  by_cases hb : bm = ""
  · simp [hb]
  · simp [hb, h]

/-- The completion handler sets the Recommendation to the coordinates of the
first currently-legal move whose SAN matches the returned one. -/
theorem suggestComplete_find_some {σ : Type} (eng : Engine σ) (bm : String) (s : AppState σ)
    (m2 : MoveRec) (hb : bm ≠ "")
    (h : (eng.movesAll s.game).find? (fun (m : MoveRec) => m.san == bm) = some m2) :
    (suggestComplete eng (some bm) s).suggestedMove = some (m2.fromSq, m2.toSq) := by
  unfold suggestComplete
  simp [hb, h]

/-- C1 (amended): a manual move played while a suggestion request is in
flight clears the Recommendation, and when the request then resolves the
Recommendation remains absent *unless* the returned SAN names a move legal
in the post-move position current at completion time, in which case it is
set to that move's coordinates — the handler carries no version stamp, and
this legality re-check at completion time is the only staleness filter. -/
theorem c1_amended {σ : Type} (eng : Engine σ) (s : AppState σ) (src dst : Sq)
    (roll : Bool) (bm : String) (g2 : σ) (mv m2 : MoveRec)
    (hOver : s.gameOver = false)
    (hSel : s.selectedSquare = some src)
    (hNe : src ≠ dst)
    (hMove : eng.move s.game ⟨src, dst, 'q'⟩ = some (g2, mv)) :
    (squareClick eng dst roll s).suggestedMove = none ∧
    (squareClick eng dst roll s).game = g2 ∧
    ((eng.movesAll g2).find? (fun (m : MoveRec) => m.san == bm) = none →
      (suggestComplete eng (some bm) (squareClick eng dst roll s)).suggestedMove = none) ∧
    (bm ≠ "" →
      (eng.movesAll g2).find? (fun (m : MoveRec) => m.san == bm) = some m2 →
      (suggestComplete eng (some bm) (squareClick eng dst roll s)).suggestedMove
        = some (m2.fromSq, m2.toSq)) := by
  have hclick : squareClick eng dst roll s =
      (if roll = true then
        updateGameState eng s.whiteTime s.blackTime
          { s with game := g2, selectedSquare := none, possibleMoves := [],
                   suggestedMove := none }
      else
        { updateGameState eng s.whiteTime s.blackTime
            { s with game := g2, selectedSquare := none, possibleMoves := [],
                     suggestedMove := none }
          with coachTip := "" }) := by
    unfold squareClick
    rw [hSel]
    simp [hOver, hNe, hMove]
  have hsg : (squareClick eng dst roll s).suggestedMove = none := by
    rw [hclick]
    cases roll <;> simp
  have hgm : (squareClick eng dst roll s).game = g2 := by
    rw [hclick]
    cases roll <;> simp
  refine ⟨hsg, hgm, ?_, ?_⟩
  · intro hfind
    have := suggestComplete_find_none eng bm (squareClick eng dst roll s)
      (by rw [hgm]; exact hfind)
    rw [this, hsg]
  · intro hb hfind
    exact suggestComplete_find_some eng bm (squareClick eng dst roll s) m2 hb
      (by rw [hgm]; exact hfind)

/-- C1, witness: the amended behaviour at the concrete fragment — after the
manual move a2–a3 the Recommendation is cleared, and the completion with the
stale SAN "e6" sets it to black's e7–e6 (the currently-legal match). -/
theorem c1_amended_witness :
    (squareClick miniEngine sqA3 false (run miniEngine 10 "" "" [Op.hint, Op.click sqA2 false])).suggestedMove = none ∧
    (squareClick miniEngine sqA3 false (run miniEngine 10 "" "" [Op.hint, Op.click sqA2 false])).game = MiniPos.p1 ∧
    ((miniEngine.movesAll MiniPos.p1).find? (fun (m : MoveRec) => m.san == "e6") = none →
      (suggestComplete miniEngine (some "e6")
        (squareClick miniEngine sqA3 false (run miniEngine 10 "" "" [Op.hint, Op.click sqA2 false]))).suggestedMove = none) ∧
    (("e6" : String) ≠ "" →
      (miniEngine.movesAll MiniPos.p1).find? (fun (m : MoveRec) => m.san == "e6") = some mvE7E6 →
      (suggestComplete miniEngine (some "e6")
        (squareClick miniEngine sqA3 false (run miniEngine 10 "" "" [Op.hint, Op.click sqA2 false]))).suggestedMove
        = some (mvE7E6.fromSq, mvE7E6.toSq)) :=
  c1_amended miniEngine (run miniEngine 10 "" "" [Op.hint, Op.click sqA2 false])
    sqA2 sqA3 false "e6" MiniPos.p1 mvA2A3 mvE7E6
    (by decide) (by decide) (by decide) (by decide)

/-- C4: from any state whose Outcome is terminal, no controller operation
changes the Outcome except reset, and reset either restores the active
Outcome (empty status) or — when the pre-reset clock values read by the
stale closure are not both positive — leaves the Outcome exactly as it was;
in particular no operation ever moves a terminal Outcome to a different
terminal value, and only reset can move it back to active. -/
theorem c4_outcome_sticky {σ : Type} (eng : Engine σ) (s : AppState σ) (o : Op)
    (hinit : eng.isGameOver eng.init = false)
    (h : s.gameOver = true) :
    ((step eng o s).gameOver = true ∧ (step eng o s).gameStatus = s.gameStatus) ∨
    (o = Op.reset ∧ (step eng o s).gameOver = false ∧ (step eng o s).gameStatus = "") := by
  cases o with
  | click sq roll =>
    left
    unfold step squareClick
    simp [h]
  | takeback =>
    left
    unfold step undoClick
    simp [h]
  | reset =>
    by_cases hwb : 0 < s.whiteTime ∧ 0 < s.blackTime
    · right
      refine ⟨rfl, ?_, ?_⟩ <;>
      · unfold step resetGame updateGameState
        simp [hinit, hwb]
    · left
      constructor <;>
      · unfold step resetGame updateGameState
        simp [hinit, hwb, h]
  | tick =>
    left
    unfold step tick
    simp [h]
  | hint =>
    left
    unfold step hintClick hintDisabled
    simp [h]
  | complete bm =>
    left
    unfold step suggestComplete
    rcases bm with _ | b
    · simp [h]
    · by_cases hb : b = ""
      · simp [hb, h]
      · rcases hfind : (eng.movesAll s.game).find? (fun (m : MoveRec) => m.san == b) with _ | m
        · simp [hb, hfind, h]
        · simp [hb, hfind, h]
  | coach t =>
    left
    unfold step coachArrive
    simp [h]
  | setTC tc =>
    left
    unfold step setTimeControlOp
    simp [h]
  | setWName n =>
    left
    unfold step setWhiteNameOp
    simp [h]
  | setBName n =>
    left
    unfold step setBlackNameOp
    simp [h]

/-- C4, witness: a tick in a terminal (draw) state leaves the Outcome
untouched. -/
theorem c4_outcome_sticky_witness :
    ((step miniEngine Op.tick
        { mkInitial miniEngine 1 "" "" with gameOver := true, gameStatus := "Draw!" }).gameOver = true ∧
      (step miniEngine Op.tick
        { mkInitial miniEngine 1 "" "" with gameOver := true, gameStatus := "Draw!" }).gameStatus
        = ({ mkInitial miniEngine 1 "" "" with gameOver := true, gameStatus := "Draw!" } : AppState MiniPos).gameStatus) ∨
    (Op.tick = Op.reset ∧
      (step miniEngine Op.tick
        { mkInitial miniEngine 1 "" "" with gameOver := true, gameStatus := "Draw!" }).gameOver = false ∧
      (step miniEngine Op.tick
        { mkInitial miniEngine 1 "" "" with gameOver := true, gameStatus := "Draw!" }).gameStatus = "") :=
  c4_outcome_sticky miniEngine _ Op.tick rfl rfl

/-! ### Selection invariant (for C6) -/

/-- The Selection invariant: the selection is empty, or it is a single
square currently occupied by a piece of the side to move. -/
def selInv {σ : Type} (eng : Engine σ) (s : AppState σ) : Prop :=
  match s.selectedSquare with
  | none => True
  | some sq =>
    match eng.pieceAt s.game sq with
    | some p => p.color = eng.turn s.game
    | none => False

/-- A click on `dst` constituted a legal move: a selection existed, the
game was not over, the click was not a deselect, and the engine accepted
the move from the selection to `dst`. -/
def clickWasLegalMove {σ : Type} (eng : Engine σ) (dst : Sq) (s : AppState σ) : Prop :=
  match s.selectedSquare with
  | some src =>
    s.gameOver = false ∧ src ≠ dst ∧
    (eng.move s.game ⟨src, dst, 'q'⟩).isSome = true
  | none => False

/-- An empty selection satisfies the invariant. -/
theorem selInv_of_none {σ : Type} (eng : Engine σ) {s : AppState σ}
    (h : s.selectedSquare = none) : selInv eng s := by
  unfold selInv
  rw [h]
  trivial

/-- The fallthrough selection attempt establishes the invariant. -/
theorem selInv_trySelect {σ : Type} (eng : Engine σ) (sq : Sq) (s : AppState σ) :
    selInv eng (trySelect eng sq s) := by
  unfold trySelect
  rcases hp : eng.pieceAt s.game sq with _ | p
  · apply selInv_of_none
    rfl
  · dsimp only
    by_cases hc : p.color = eng.turn s.game
    · rw [if_pos hc]
      unfold selInv
      simp [hp, hc]
    · rw [if_neg hc]
      apply selInv_of_none
      rfl

@[simp]
theorem hintClick_selectedSquare {σ : Type} (s : AppState σ) :
    (hintClick s).selectedSquare = s.selectedSquare := by
  unfold hintClick suggestStart hintDisabled
  split_ifs <;> rfl

@[simp]
theorem hintClick_game {σ : Type} (s : AppState σ) :
    (hintClick s).game = s.game := by
  unfold hintClick suggestStart hintDisabled
  split_ifs <;> rfl

@[simp]
theorem tick_selectedSquare {σ : Type} (s : AppState σ) :
    (tick s).selectedSquare = s.selectedSquare := by
  unfold tick
  by_cases h : s.gameOver = true
  · simp [h]
  · by_cases ht : s.turn = Color.w <;> simp [h, ht]

@[simp]
theorem tick_game {σ : Type} (s : AppState σ) :
    (tick s).game = s.game := by
  unfold tick
  by_cases h : s.gameOver = true
  · simp [h]
  · by_cases ht : s.turn = Color.w <;> simp [h, ht]

@[simp]
theorem suggestComplete_game {σ : Type} (eng : Engine σ) (bm? : Option String) (s : AppState σ) :
    (suggestComplete eng bm? s).game = s.game := by
  unfold suggestComplete
  rcases bm? with _ | b
  · rfl
  · by_cases hb : b = ""
    · simp [hb]
    · rcases hfind : (eng.movesAll s.game).find? (fun (m : MoveRec) => m.san == b) with _ | m <;>
        simp [hb, hfind]

@[simp]
theorem suggestComplete_selectedSquare {σ : Type} (eng : Engine σ) (bm? : Option String)
    (s : AppState σ) :
    (suggestComplete eng bm? s).selectedSquare = s.selectedSquare := by
  unfold suggestComplete
  rcases bm? with _ | b
  · rfl
  · by_cases hb : b = ""
    · simp [hb]
    · rcases hfind : (eng.movesAll s.game).find? (fun (m : MoveRec) => m.san == b) with _ | m <;>
        simp [hb, hfind]

/-- `onSquareClick` has exactly three observable shapes: a no-op, a cleared
selection, or the fallthrough fresh selection attempt. -/
theorem squareClick_cases {σ : Type} (eng : Engine σ) (sq : Sq) (roll : Bool) (s : AppState σ) :
    squareClick eng sq roll s = s ∨
    (squareClick eng sq roll s).selectedSquare = none ∨
    squareClick eng sq roll s = trySelect eng sq s := by
  by_cases hg : s.gameOver = true
  · left
    unfold squareClick
    simp [hg]
  · by_cases hsel : s.selectedSquare = some sq
    · right; left
      unfold squareClick
      simp [hg, hsel]
    · rcases hs : s.selectedSquare with _ | src
      · right; right
        unfold squareClick
        rw [hs]
        simp [hg]
      · have hne : src ≠ sq := fun he => hsel (by rw [hs, he])
        rcases hm : eng.move s.game ⟨src, sq, 'q'⟩ with _ | p
        · right; right
          unfold squareClick
          rw [hs]
          simp [hg, hne, hm]
        · right; left
          unfold squareClick
          rw [hs]
          simp only [hg, Bool.false_eq_true, if_false, Option.some.injEq, hne, ite_false, hm]
          cases roll <;> simp

/-- Every controller step preserves the Selection invariant. -/
theorem selInv_step {σ : Type} (eng : Engine σ) (o : Op) (s : AppState σ)
    (h : selInv eng s) : selInv eng (step eng o s) := by
  cases o with
  | click sq roll =>
    show selInv eng (squareClick eng sq roll s)
    rcases squareClick_cases eng sq roll s with hc | hc | hc
    · rw [hc]; exact h
    · exact selInv_of_none eng hc
    · rw [hc]; exact selInv_trySelect eng sq s
  | takeback =>
    show selInv eng (undoClick eng s)
    unfold undoClick
    split_ifs with hcond
    · exact h
    · unfold undoMove
      split_ifs with hh
      · exact h
      · apply selInv_of_none
        simp
  | reset =>
    apply selInv_of_none
    show (resetGame eng s).selectedSquare = none
    unfold resetGame
    simp
  | tick =>
    show selInv eng (tick s)
    unfold selInv at h ⊢
    rw [tick_selectedSquare, tick_game]
    exact h
  | hint =>
    show selInv eng (hintClick s)
    unfold selInv at h ⊢
    rw [hintClick_selectedSquare, hintClick_game]
    exact h
  | complete bm =>
    show selInv eng (suggestComplete eng bm s)
    unfold selInv at h ⊢
    rw [suggestComplete_selectedSquare, suggestComplete_game]
    exact h
  | coach t => exact h
  | setTC tc => exact h
  | setWName n => exact h
  | setBName n => exact h

/-- The Selection invariant holds after any event sequence from any state
satisfying it. -/
theorem selInv_foldl {σ : Type} (eng : Engine σ) (ops : List Op) (s : AppState σ)
    (h : selInv eng s) :
    selInv eng (ops.foldl (fun s o => step eng o s) s) := by
  induction ops generalizing s with
  | nil => exact h
  | cons o rest ih => exact ih _ (selInv_step eng o s h)

/-- If a square click changed the Position, the click constituted a legal
move accepted by the engine. -/
theorem squareClick_game_change {σ : Type} (eng : Engine σ) (sq : Sq) (roll : Bool)
    (s : AppState σ) (h : (squareClick eng sq roll s).game ≠ s.game) :
    clickWasLegalMove eng sq s := by
  by_cases hg : s.gameOver = true
  · exact absurd (by unfold squareClick; simp [hg]) h
  · by_cases hsel : s.selectedSquare = some sq
    · exact absurd (by unfold squareClick; simp [hg, hsel]) h
    · rcases hs : s.selectedSquare with _ | src
      · exfalso
        apply h
        have hts : squareClick eng sq roll s = trySelect eng sq s := by
          unfold squareClick
          rw [hs]
          simp [hg]
        rw [hts]
        simp
      · have hne : src ≠ sq := fun he => hsel (by rw [hs, he])
        rcases hm : eng.move s.game ⟨src, sq, 'q'⟩ with _ | p
        · exfalso
          apply h
          have hts : squareClick eng sq roll s = trySelect eng sq s := by
            unfold squareClick
            rw [hs]
            simp [hg, hne, hm]
          rw [hts]
          simp
        · unfold clickWasLegalMove
          rw [hs]
          refine ⟨by simpa using hg, hne, ?_⟩
          rw [hm]
          rfl

/-- Clicking the currently selected square while the game is running clears
the selection and leaves the Position unchanged. -/
theorem squareClick_toggle {σ : Type} (eng : Engine σ) (sq : Sq) (roll : Bool)
    (s : AppState σ) (hg : s.gameOver = false) (hsel : s.selectedSquare = some sq) :
    (squareClick eng sq roll s).selectedSquare = none ∧
    (squareClick eng sq roll s).game = s.game := by
  unfold squareClick
  simp [hg, hsel]

set_option maxRecDepth 40000 in
/-- C6, counterexample.  Reachable run: select a2, then let white's clock
run out (the timeout terminalises the Outcome *without* clearing the
selection); clicking the still-selected a2 now hits the `gameOver` early
return, so the selection is retained, not cleared — "clicking the currently
selected square always clears the selection" fails at this reachable
state. -/
theorem c6_counterexample :
    (run miniEngine 1 "" "" ([Op.click sqA2 false] ++ List.replicate 60 Op.tick)).selectedSquare
      = some sqA2 ∧
    (run miniEngine 1 "" "" ([Op.click sqA2 false] ++ List.replicate 60 Op.tick)).gameOver
      = true ∧
    (run miniEngine 1 "" ""
        ([Op.click sqA2 false] ++ List.replicate 60 Op.tick ++ [Op.click sqA2 false])).selectedSquare
      = some sqA2 := by
  decide

/-- C6 (amended): over every reachable state, the Selection is always empty
or a single square occupied by a piece of the side to move; a square click
changes the Position only when it constitutes a legal move; and clicking
the currently selected square clears the selection *when the game is not
over* (when the Outcome is terminal the click is a no-op and a selection
left over from a timeout is retained). -/
theorem c6_amended {σ : Type} (eng : Engine σ) (tc : Nat) (wn bn : String)
    (ops : List Op) (sq : Sq) (roll : Bool) :
    selInv eng (run eng tc wn bn ops) ∧
    ((squareClick eng sq roll (run eng tc wn bn ops)).game ≠ (run eng tc wn bn ops).game →
      clickWasLegalMove eng sq (run eng tc wn bn ops)) ∧
    ((run eng tc wn bn ops).gameOver = false →
      (run eng tc wn bn ops).selectedSquare = some sq →
      (squareClick eng sq roll (run eng tc wn bn ops)).selectedSquare = none ∧
      (squareClick eng sq roll (run eng tc wn bn ops)).game = (run eng tc wn bn ops).game) :=
  ⟨selInv_foldl eng ops (mkInitial eng tc wn bn) (selInv_of_none eng rfl),
   squareClick_game_change eng sq roll (run eng tc wn bn ops),
   fun hg hsel => squareClick_toggle eng sq roll (run eng tc wn bn ops) hg hsel⟩

/-- C6, witness: after selecting a2 in the fragment, the invariant holds
and clicking the selected a2 clears the selection without touching the
Position. -/
theorem c6_amended_witness :
    selInv miniEngine (run miniEngine 10 "" "" [Op.click sqA2 false]) ∧
    ((squareClick miniEngine sqA2 false (run miniEngine 10 "" "" [Op.click sqA2 false])).selectedSquare
        = none ∧
      (squareClick miniEngine sqA2 false (run miniEngine 10 "" "" [Op.click sqA2 false])).game
        = (run miniEngine 10 "" "" [Op.click sqA2 false]).game) :=
  ⟨(c6_amended miniEngine 10 "" "" [Op.click sqA2 false] sqA2 false).1,
   (c6_amended miniEngine 10 "" "" [Op.click sqA2 false] sqA2 false).2.2 (by decide) (by decide)⟩

end GMChess
